import Mathlib

/-!
Shallow embedding of `stocktracker/main.go` (a Go stock-tracker gateway).

Conventions of the embedding:
* Go `int`/`int64` values are modelled as `Int` (the handler keeps `minutes`
  within `[1,5000]`, far from any overflow, and `strconv.Atoi` range failures
  are modelled explicitly in `goAtoi`).
* JSON numbers (Go `float64`) are modelled as `Int`: every claim treated here
  depends only on presence, absence, zero-ness, or pass-through of numeric
  values, never on fractional arithmetic.
* Go's `net/http` query getter `r.URL.Query().Get(k)` returns `""` both for an
  absent parameter and for an explicitly empty one, so query parameters are
  modelled as `String` with `""` meaning absent-or-empty, exactly as the Go
  code observes them.
* `encoding/json` marshalling of a Go `map[string]any` emits object keys in
  sorted order; `bodyOf` below lists keys in that order.
* The two `time.Now()` calls inside `fetchCandles` are modelled as a single
  instant `now` (Unix seconds); subtracting a whole number of seconds commutes
  with the nanosecond-to-second truncation that `.Unix()` performs, so the
  second-granularity window is exact.
-/

/-- A JSON value, as `encoding/json` sees a decoded body.  Object fields keep
their textual order (Go's decoder processes them in stream order). -/
inductive Json where
  | null : Json
  | bool (b : Bool) : Json
  | num (n : Int) : Json
  | str (s : String) : Json
  | arr (elems : List Json) : Json
  | obj (fields : List (String × Json)) : Json
deriving Repr

/-- Go struct `quoteResp` of main.go lines 28-34: five `float64` fields with
json tags `c`, `h`, `l`, `o`, `pc`. -/
structure QuoteResp where
  Current : Int
  High : Int
  Low : Int
  Open : Int
  PrevClose : Int
deriving Repr, DecidableEq

/-- The zero value of `quoteResp`, which Go's decoder starts from: every
numeric field is `0`. -/
def QuoteResp.zero : QuoteResp := ⟨0, 0, 0, 0, 0⟩

/-- Decoding one JSON value into one `float64` struct field, as
`encoding/json` does: a number overwrites the field, JSON `null` leaves the
field untouched, anything else is a type-mismatch decode error. -/
def decodeF64 (v : Json) (cur : Int) : Except String Int :=
  match v with
  | Json.num n => Except.ok n
  | Json.null => Except.ok cur
  | _ => Except.error "json: cannot unmarshal value into Go struct field of type float64"

/-- Processing one object field of a `quoteResp` body: the five tagged keys
update their field (a mismatch aborts decoding), unknown keys are ignored. -/
def setQuoteField (q : QuoteResp) (k : String) (v : Json) : Except String QuoteResp :=
  if k = "c" then (decodeF64 v q.Current).map fun x => { q with Current := x }
  else if k = "h" then (decodeF64 v q.High).map fun x => { q with High := x }
  else if k = "l" then (decodeF64 v q.Low).map fun x => { q with Low := x }
  else if k = "o" then (decodeF64 v q.Open).map fun x => { q with Open := x }
  else if k = "pc" then (decodeF64 v q.PrevClose).map fun x => { q with PrevClose := x }
  else Except.ok q

/-- `json.Decoder.Decode(&q)` for `q : quoteResp` (main.go line 80): a JSON
object is folded field by field over the zero value in stream order (so a
duplicate key is decoded twice, and the first mismatch aborts); JSON `null`
is a successful no-op leaving the zero value; any other top-level value is a
type-mismatch error. -/
def decodeQuoteResp (j : Json) : Except String QuoteResp :=
  match j with
  | Json.obj fields => fields.foldlM (fun q kv => setQuoteField q kv.1 kv.2) QuoteResp.zero
  | Json.null => Except.ok QuoteResp.zero
  | _ => Except.error "json: cannot unmarshal value into Go value of type main.quoteResp"

/-- `fetchQuote` of main.go lines 67-84, abstracted over the network response:
`transportErr` is a failure of `httpClient.Get` itself; `status` is the HTTP
status code; `body` is `some j` when the response body is syntactically valid
JSON with value `j` and `none` when it is malformed (a syntax error from the
decoder). -/
def fetchQuote (transportErr : Option String) (status : Nat) (body : Option Json) :
    Except String QuoteResp :=
  match transportErr with
  | some e => Except.error e
  | none =>
    if status < 200 ∨ 300 ≤ status then
      Except.error ("quote status " ++ toString status)
    else
      match body with
      | none => Except.error "invalid character in JSON body"
      | some j => decodeQuoteResp j

/-- Decimal digit run accumulator for `goAtoi`: consumes the remaining
characters, failing on the first non-digit. -/
def parseDigitsAux : List Char → Nat → Option Nat
  | [], acc => some acc
  | c :: cs, acc =>
    if c.isDigit then parseDigitsAux cs (10 * acc + (c.toNat - 48)) else none

/-- Largest value of Go's 64-bit `int`. -/
def int64Max : Nat := 2 ^ 63 - 1

/-- Smallest magnitude rejected on the negative side of Go's 64-bit `int`
is `2 ^ 63 + 1`, i.e. magnitudes up to `2 ^ 63` are accepted. -/
def int64NegMax : Nat := 2 ^ 63

/-- `strconv.Atoi` (base 10, bit size of `int` = 64): an optional leading
sign followed by at least one ASCII digit, nothing else; a value outside the
`int64` range is an `ErrRange` failure, modelled as `none`. -/
def goAtoi (s : String) : Option Int :=
  match s.toList with
  | [] => none
  | '+' :: cs =>
    if cs = [] then none
    else (parseDigitsAux cs 0).bind fun n =>
      if n ≤ int64Max then some (n : Int) else none
  | '-' :: cs =>
    if cs = [] then none
    else (parseDigitsAux cs 0).bind fun n =>
      if n ≤ int64NegMax then some (-(n : Int)) else none
  | cs => (parseDigitsAux cs 0).bind fun n =>
    if n ≤ int64Max then some (n : Int) else none

/-- Go struct `candleResp` of main.go lines 36-44: parallel slices plus the
provider status string `s` ("ok" or "no_data"). -/
structure CandleResp where
  Close : List Int
  High : List Int
  Low : List Int
  Open : List Int
  Time : List Int
  Volume : List Int
  S : String
deriving Repr, DecidableEq

/-- The `minutes` normalisation at the head of `fetchCandles`
(main.go lines 87-89): a non-positive window falls back to 60 minutes. -/
def fetchCandlesNorm (minutes : Int) : Int :=
  if minutes ≤ 0 then 60 else minutes

/-- The absolute `(from, to)` Unix-second window `fetchCandles` requests
(main.go lines 90-91): `to` is now, `from` is the normalised window earlier. -/
def fetchCandlesWindow (now minutes : Int) : Int × Int :=
  (now - fetchCandlesNorm minutes * 60, now)

/-- The effective `minutes` value `handleCandles` computes from the query
string (main.go lines 132-138): default 60, replaced by the parsed value only
when `strconv.Atoi` succeeds with a value in `[1, 5000]`. -/
def effectiveMinutes (minStr : String) : Int :=
  if minStr = "" then 60
  else
    match goAtoi minStr with
    | some v => if 0 < v ∧ v ≤ 5000 then v else 60
    | none => 60

/-- The response `handleCandles` writes, one constructor per `writeJSON`
call site. -/
inductive CandlesResponse where
  | badRequest (msg : String) : CandlesResponse
  | internalError : CandlesResponse
  | emptyOk (symbol status : String) : CandlesResponse
  | dataOk (symbol status : String) (t o h l c v : List Int) : CandlesResponse
deriving Repr, DecidableEq

/-- HTTP status code of each `handleCandles` response. -/
def statusOf : CandlesResponse → Nat
  | CandlesResponse.badRequest _ => 400
  | CandlesResponse.internalError => 500
  | CandlesResponse.emptyOk _ _ => 200
  | CandlesResponse.dataOk _ _ _ _ _ _ _ _ => 200

/-- JSON body of each `handleCandles` response; keys appear in the sorted
order Go's `json` package uses when marshalling a `map[string]any`. -/
def bodyOf : CandlesResponse → Json
  | CandlesResponse.badRequest msg => Json.obj [("error", Json.str msg)]
  | CandlesResponse.internalError => Json.obj [("error", Json.str "internal_error")]
  | CandlesResponse.emptyOk symbol status =>
      Json.obj [("candles", Json.arr []), ("status", Json.str status),
                ("symbol", Json.str symbol)]
  | CandlesResponse.dataOk symbol status t o h l c v =>
      Json.obj [("c", Json.arr (c.map Json.num)), ("h", Json.arr (h.map Json.num)),
                ("l", Json.arr (l.map Json.num)), ("o", Json.arr (o.map Json.num)),
                ("status", Json.str status), ("symbol", Json.str symbol),
                ("t", Json.arr (t.map Json.num)), ("v", Json.arr (v.map Json.num))]

/-- Everything observable about one `handleCandles` invocation: the response,
whether the upstream fetch was reached, the window passed to it, and the log
lines emitted. -/
structure HandlerResult where
  response : CandlesResponse
  upstreamCalled : Bool
  minutesUsed : Option Int
  logged : List String
deriving Repr, DecidableEq

/-- `handleCandles` of main.go lines 125-164, abstracted over the upstream
fetch: `fetch` maps the `minutes` argument of `fetchCandles` to the decoded
result or error of the upstream call. -/
def handleCandles (symbol minStr : String) (fetch : Int → Except String CandleResp) :
    HandlerResult :=
  if symbol = "" then
    ⟨CandlesResponse.badRequest "symbol is required", false, none, []⟩
  else
    match fetch (effectiveMinutes minStr) with
    | Except.error e =>
        ⟨CandlesResponse.internalError, true, some (effectiveMinutes minStr),
         ["server error: " ++ e]⟩
    | Except.ok c =>
        if c.S ≠ "ok" ∨ c.Time = [] then
          ⟨CandlesResponse.emptyOk symbol c.S, true, some (effectiveMinutes minStr), []⟩
        else
          ⟨CandlesResponse.dataOk symbol c.S c.Time c.Open c.High c.Low c.Close c.Volume,
           true, some (effectiveMinutes minStr), []⟩

/-- Whether a `handleCandles` response carries mutually equal-length parallel
sequences (vacuously true for the non-data responses). -/
def seqLensEqual : CandlesResponse → Bool
  | CandlesResponse.dataOk _ _ t o h l c v =>
      decide (o.length = t.length) && decide (h.length = t.length) &&
      decide (l.length = t.length) && decide (c.length = t.length) &&
      decide (v.length = t.length)
  | _ => true

/-- The JSON payload `sendQuote` writes (main.go lines 190-194): a
`map[string]any` with exactly the keys `symbol`, `price` (the quote's `c`
field) and `time` (wall clock at construction, Unix milliseconds), listed in
the sorted order Go marshals map keys in. -/
def payloadJson (symbol : String) (price timeMillis : Int) : Json :=
  Json.obj [("price", Json.num price), ("symbol", Json.str symbol),
            ("time", Json.num timeMillis)]

/-- The outcome of one `sendQuote` attempt, as determined by the external
world: the quote fetch fails; or the fetch succeeds (yielding the current
price and the wall-clock capture time in milliseconds) and the connection
write fails; or both succeed. -/
inductive SQOutcome where
  | fetchFail : SQOutcome
  | sendFail (price timeMillis : Int) : SQOutcome
  | ok (price timeMillis : Int) : SQOutcome
deriving Repr, DecidableEq

/-- Whether a `sendQuote` attempt with this outcome returns `nil`. -/
def sqOk : SQOutcome → Bool
  | SQOutcome.ok _ _ => true
  | _ => false

/-- Observable events of a streaming session, in program order. -/
inductive WsEvent where
  | armTicker : WsEvent
  | fetchOk : WsEvent
  | fetchFail : WsEvent
  | send (msg : Json) (ok : Bool) : WsEvent
  | waitTick : WsEvent
  | logError : WsEvent
  | stopTicker : WsEvent
  | closeConn : WsEvent
deriving Repr

def WsEvent.isSend : WsEvent → Bool
  | WsEvent.send _ _ => true
  | _ => false

def WsEvent.isSentMsg : WsEvent → Bool
  | WsEvent.send _ ok => ok
  | _ => false

def WsEvent.isWaitTick : WsEvent → Bool
  | WsEvent.waitTick => true
  | _ => false

def WsEvent.isCloseConn : WsEvent → Bool
  | WsEvent.closeConn => true
  | _ => false

def WsEvent.isStopTicker : WsEvent → Bool
  | WsEvent.stopTicker => true
  | _ => false

def WsEvent.isArmTicker : WsEvent → Bool
  | WsEvent.armTicker => true
  | _ => false

/-- Events of one `sendQuote` call (main.go lines 185-197) for a session on
`symbol`: a failed fetch produces no write; a successful fetch builds the
payload and attempts exactly one write. -/
def sqEvents (symbol : String) : SQOutcome → List WsEvent
  | SQOutcome.fetchFail => [WsEvent.fetchFail]
  | SQOutcome.sendFail p t => [WsEvent.fetchOk, WsEvent.send (payloadJson symbol p t) false]
  | SQOutcome.ok p t => [WsEvent.fetchOk, WsEvent.send (payloadJson symbol p t) true]

/-- Teardown of a failed session: the error is logged (`log.Println`), then
the deferred calls run in reverse registration order — `ticker.Stop()`
(registered line 182) before `conn.Close()` (registered line 179). -/
def wsTeardown : List WsEvent :=
  [WsEvent.logError, WsEvent.stopTicker, WsEvent.closeConn]

/-- The `for range ticker.C` loop of main.go lines 204-209: each iteration
blocks on a ticker firing, then performs one `sendQuote`; the first failure
exits the loop into teardown.  The supplied outcome list is a finite prefix
of the external world's behaviour; exhausting it with every attempt
successful leaves the session still running (no teardown events). -/
def wsLoop (symbol : String) : List SQOutcome → List WsEvent
  | [] => []
  | o :: rest =>
      WsEvent.waitTick :: sqEvents symbol o ++
        (if sqOk o then wsLoop symbol rest else wsTeardown)

/-- `handleWS` of main.go lines 168-210, abstracted over the external world:
`query` is the `symbol` query parameter (`""` when absent or empty),
`upgradeOk` tells whether the protocol upgrade succeeded, `first` is the
outcome of the immediate first `sendQuote`, `rest` the outcomes of the
timer-driven attempts.  A failed upgrade only logs (no connection exists);
otherwise the ticker is armed, the first `sendQuote` runs, and on success the
timer loop takes over. -/
def wsSymbol (query : String) : String :=
  if query = "" then "AAPL" else query

def handleWS (query : String) (upgradeOk : Bool) (first : SQOutcome)
    (rest : List SQOutcome) : List WsEvent :=
  if upgradeOk then
    WsEvent.armTicker :: sqEvents (wsSymbol query) first ++
      (if sqOk first then wsLoop (wsSymbol query) rest else wsTeardown)
  else
    [WsEvent.logError]

/-- The messages actually delivered over the connection, in order. -/
def sentMsgs (tr : List WsEvent) : List Json :=
  tr.filterMap fun e =>
    match e with
    | WsEvent.send m true => some m
    | _ => none

/-! ### Helper lemmas about `handleCandles` and `effectiveMinutes` -/

/-- Whenever the symbol is present, `handleCandles` reaches the upstream
fetch, passes it the effective minutes, and never answers 400. -/
lemma handleCandles_reaches_fetch (symbol minStr : String)
    (fetch : Int → Except String CandleResp) (hs : symbol ≠ "") :
    (handleCandles symbol minStr fetch).minutesUsed = some (effectiveMinutes minStr) ∧
    (handleCandles symbol minStr fetch).upstreamCalled = true ∧
    statusOf (handleCandles symbol minStr fetch).response ≠ 400 := by
  unfold handleCandles
  rw [if_neg hs]
  split
  · exact ⟨rfl, rfl, by simp [statusOf]⟩
  · split
    · exact ⟨rfl, rfl, by simp [statusOf]⟩
    · exact ⟨rfl, rfl, by simp [statusOf]⟩

lemma effectiveMinutes_default (minStr : String)
    (h : minStr = "" ∨ goAtoi minStr = none ∨
         ∃ v, goAtoi minStr = some v ∧ (v < 1 ∨ 5000 < v)) :
    effectiveMinutes minStr = 60 := by
  unfold effectiveMinutes
  rcases h with h | h | ⟨v, hv, hout⟩
  · rw [if_pos h]
  · by_cases he : minStr = ""
    · rw [if_pos he]
    · rw [if_neg he, h]
  · by_cases he : minStr = ""
    · rw [if_pos he]
    · rw [if_neg he, hv]
      show (if 0 < v ∧ v ≤ 5000 then v else 60) = 60
      have : ¬(0 < v ∧ v ≤ 5000) := by
        rcases hout with hlo | hhi
        · intro hx; omega
        · intro hx; omega
      rw [if_neg this]

lemma effectiveMinutes_in_range (minStr : String) (v : Int)
    (hv : goAtoi minStr = some v) (h1 : 1 ≤ v) (h2 : v ≤ 5000) :
    effectiveMinutes minStr = v := by
  unfold effectiveMinutes
  have he : minStr ≠ "" := by
    intro h
    rw [h] at hv
    exact Option.noConfusion ((rfl : goAtoi "" = none) ▸ hv)
  rw [if_neg he, hv]
  show (if 0 < v ∧ v ≤ 5000 then v else 60) = v
  rw [if_pos ⟨by omega, h2⟩]

lemma effectiveMinutes_pos (minStr : String) : 1 ≤ effectiveMinutes minStr := by
  unfold effectiveMinutes
  by_cases he : minStr = ""
  · rw [if_pos he]; norm_num
  · rw [if_neg he]
    cases hv : goAtoi minStr with
    | none => norm_num
    | some v =>
      show 1 ≤ (if 0 < v ∧ v ≤ 5000 then v else 60)
      by_cases hr : 0 < v ∧ v ≤ 5000
      · rw [if_pos hr]; omega
      · rw [if_neg hr]; norm_num

/-- C3: whenever the symbol is present, an absent, non-numeric or
out-of-range `minutes` parameter makes the handler pass exactly 60 minutes to
the upstream candle fetch with no 4xx validation answer, while a value
parsing into `[1, 5000]` is passed through as-is. -/
theorem candles_minutes_policy (symbol minStr : String)
    (fetch : Int → Except String CandleResp) (hs : symbol ≠ "") :
    ((minStr = "" ∨ goAtoi minStr = none ∨
        ∃ v, goAtoi minStr = some v ∧ (v < 1 ∨ 5000 < v)) →
      (handleCandles symbol minStr fetch).minutesUsed = some 60 ∧
      statusOf (handleCandles symbol minStr fetch).response ≠ 400) ∧
    (∀ v, goAtoi minStr = some v → 1 ≤ v → v ≤ 5000 →
      (handleCandles symbol minStr fetch).minutesUsed = some v) ∧
    (handleCandles symbol minStr fetch).upstreamCalled = true := by
  obtain ⟨hmin, hcall, hstat⟩ := handleCandles_reaches_fetch symbol minStr fetch hs
  refine ⟨fun h => ⟨?_, hstat⟩, fun v hv h1 h2 => ?_, hcall⟩
  · rw [hmin, effectiveMinutes_default minStr h]
  · rw [hmin, effectiveMinutes_in_range minStr v hv h1 h2]

/-- Witness for C3: the concrete request `symbol="TSLA"`, `minutes="abc"`
passes a 60-minute window upstream. -/
theorem candles_minutes_policy_witness :
    (handleCandles "TSLA" "abc" (fun _ => Except.error "boom")).minutesUsed = some 60 :=
  ((candles_minutes_policy "TSLA" "abc" (fun _ => Except.error "boom")
      (by decide)).1 (Or.inr (Or.inl rfl))).1

/-- C4: a request with absent or empty `symbol` is answered 400 with body
`{"error": "symbol is required"}` and the upstream fetch is never invoked. -/
theorem candles_missing_symbol_bad_request (minStr : String)
    (fetch : Int → Except String CandleResp) :
    handleCandles "" minStr fetch =
      ⟨CandlesResponse.badRequest "symbol is required", false, none, []⟩ ∧
    statusOf (handleCandles "" minStr fetch).response = 400 ∧
    bodyOf (handleCandles "" minStr fetch).response =
      Json.obj [("error", Json.str "symbol is required")] :=
  ⟨rfl, rfl, rfl⟩

/-- Unfolding `handleCandles` on a successful upstream fetch. -/
lemma handleCandles_ok (symbol minStr : String) (c : CandleResp)
    (fetch : Int → Except String CandleResp) (hs : symbol ≠ "")
    (hf : fetch (effectiveMinutes minStr) = Except.ok c) :
    handleCandles symbol minStr fetch =
      if c.S ≠ "ok" ∨ c.Time = [] then
        ⟨CandlesResponse.emptyOk symbol c.S, true, some (effectiveMinutes minStr), []⟩
      else
        ⟨CandlesResponse.dataOk symbol c.S c.Time c.Open c.High c.Low c.Close c.Volume,
         true, some (effectiveMinutes minStr), []⟩ := by
  unfold handleCandles
  rw [if_neg hs, hf]

/-- Unfolding `handleCandles` on a failed upstream fetch. -/
lemma handleCandles_err (symbol minStr e : String)
    (fetch : Int → Except String CandleResp) (hs : symbol ≠ "")
    (hf : fetch (effectiveMinutes minStr) = Except.error e) :
    handleCandles symbol minStr fetch =
      ⟨CandlesResponse.internalError, true, some (effectiveMinutes minStr),
       ["server error: " ++ e]⟩ := by
  unfold handleCandles
  rw [if_neg hs, hf]

/-- C5: a successful upstream result whose status is not "ok" or whose
timestamp list is empty is answered 200 with `{symbol, status, candles: []}`,
never an error status. -/
theorem candles_empty_result_ok (symbol minStr : String) (c : CandleResp)
    (fetch : Int → Except String CandleResp) (hs : symbol ≠ "")
    (hf : fetch (effectiveMinutes minStr) = Except.ok c)
    (hempty : c.S ≠ "ok" ∨ c.Time = []) :
    (handleCandles symbol minStr fetch).response = CandlesResponse.emptyOk symbol c.S ∧
    statusOf (handleCandles symbol minStr fetch).response = 200 ∧
    bodyOf (handleCandles symbol minStr fetch).response =
      Json.obj [("candles", Json.arr []), ("status", Json.str c.S),
                ("symbol", Json.str symbol)] := by
  rw [handleCandles_ok symbol minStr c fetch hs hf, if_pos hempty]
  exact ⟨rfl, rfl, rfl⟩

/-- Witness for C5: a "no_data" upstream answer for TSLA produces the empty
200 response. -/
theorem candles_empty_result_ok_witness :
    (handleCandles "TSLA" ""
        (fun _ => Except.ok ⟨[], [], [], [], [], [], "no_data"⟩)).response =
      CandlesResponse.emptyOk "TSLA" "no_data" :=
  (candles_empty_result_ok "TSLA" "" ⟨[], [], [], [], [], [], "no_data"⟩
      (fun _ => Except.ok ⟨[], [], [], [], [], [], "no_data"⟩)
      (by decide) rfl (Or.inl (by decide))).1

/-- A concrete upstream answer for C6: status "ok", one timestamp, but an
empty `o` slice — `encoding/json` happily decodes such a body, and
`handleCandles` does not re-validate the lengths. -/
def c6UpstreamFetch : Int → Except String CandleResp :=
  fun _ => Except.ok ⟨[11], [12], [9], [], [1000], [100], "ok"⟩

/-- Counterexample to C6 as stated: an upstream result with status "ok" and a
non-empty timestamp list whose slices have unequal lengths is passed through
verbatim, so the sequences the handler returns are not all of equal length. -/
theorem candles_lengths_not_revalidated :
    statusOf (handleCandles "TSLA" "" c6UpstreamFetch).response = 200 ∧
    seqLensEqual (handleCandles "TSLA" "" c6UpstreamFetch).response = false := by
  constructor <;> rfl

/-- C6 amended: the handler returns the upstream sequences unchanged, so
whenever the decoded upstream slices already have mutually equal lengths, the
six sequences returned to the client have identical length. -/
theorem candles_data_lengths_preserved (symbol minStr : String) (c : CandleResp)
    (fetch : Int → Except String CandleResp) (hs : symbol ≠ "")
    (hf : fetch (effectiveMinutes minStr) = Except.ok c)
    (hok : c.S = "ok") (ht : c.Time ≠ [])
    (ho : c.Open.length = c.Time.length) (hh : c.High.length = c.Time.length)
    (hl : c.Low.length = c.Time.length) (hc : c.Close.length = c.Time.length)
    (hv : c.Volume.length = c.Time.length) :
    (handleCandles symbol minStr fetch).response =
      CandlesResponse.dataOk symbol c.S c.Time c.Open c.High c.Low c.Close c.Volume ∧
    seqLensEqual (handleCandles symbol minStr fetch).response = true := by
  have hcond : ¬(c.S ≠ "ok" ∨ c.Time = []) := not_or.mpr ⟨fun h => h hok, ht⟩
  rw [handleCandles_ok symbol minStr c fetch hs hf, if_neg hcond]
  exact ⟨rfl, by simp [seqLensEqual, ho, hh, hl, hc, hv]⟩

/-- Witness for the amended C6: a two-bar TSLA result with equal-length
slices comes back as equal-length sequences. -/
theorem candles_data_lengths_preserved_witness :
    (handleCandles "TSLA" "30"
        (fun _ => Except.ok ⟨[11, 11], [12, 12], [9, 9], [10, 11], [1000, 1060],
                             [100, 150], "ok"⟩)).response =
      CandlesResponse.dataOk "TSLA" "ok" [1000, 1060] [10, 11] [12, 12] [9, 9]
        [11, 11] [100, 150] :=
  (candles_data_lengths_preserved "TSLA" "30"
      ⟨[11, 11], [12, 12], [9, 9], [10, 11], [1000, 1060], [100, 150], "ok"⟩
      (fun _ => Except.ok ⟨[11, 11], [12, 12], [9, 9], [10, 11], [1000, 1060],
                           [100, 150], "ok"⟩)
      (by decide) rfl rfl (by decide) rfl rfl rfl rfl rfl).1

/-- C7: an upstream fetch error makes the handler answer 500 with the opaque
body `{"error": "internal_error"}`; the underlying message goes to the log
and the response body does not depend on it. -/
theorem candles_upstream_error_internal (symbol minStr e : String)
    (fetch : Int → Except String CandleResp) (hs : symbol ≠ "")
    (hf : fetch (effectiveMinutes minStr) = Except.error e) :
    (handleCandles symbol minStr fetch).response = CandlesResponse.internalError ∧
    statusOf (handleCandles symbol minStr fetch).response = 500 ∧
    bodyOf (handleCandles symbol minStr fetch).response =
      Json.obj [("error", Json.str "internal_error")] ∧
    (handleCandles symbol minStr fetch).logged = ["server error: " ++ e] := by
  rw [handleCandles_err symbol minStr e fetch hs hf]
  exact ⟨rfl, rfl, rfl, rfl⟩

/-- Witness for C7: a concrete transport failure yields the opaque 500. -/
theorem candles_upstream_error_internal_witness :
    (handleCandles "TSLA" "" (fun _ => Except.error "dial tcp: timeout")).response =
      CandlesResponse.internalError :=
  (candles_upstream_error_internal "TSLA" "" "dial tcp: timeout"
      (fun _ => Except.error "dial tcp: timeout") (by decide) rfl).1

/-- C8: the candle fetch requests the absolute window ending at the current
time and starting the effective window earlier: `to` is now, and `to - from`
is 3600 seconds for a non-positive (invalid) window, `m * 60` seconds for a
positive one; a window coming from the handler's `minutes` policy is already
positive and is used as-is. -/
theorem fetchCandles_window_spec (now m : Int) (minStr : String) :
    (fetchCandlesWindow now m).2 = now ∧
    (m ≤ 0 → (fetchCandlesWindow now m).2 - (fetchCandlesWindow now m).1 = 60 * 60) ∧
    (0 < m → (fetchCandlesWindow now m).2 - (fetchCandlesWindow now m).1 = m * 60) ∧
    (fetchCandlesWindow now (effectiveMinutes minStr)).2 -
        (fetchCandlesWindow now (effectiveMinutes minStr)).1 =
      effectiveMinutes minStr * 60 := by
  have hgen : ∀ k : Int, (fetchCandlesWindow now k).2 - (fetchCandlesWindow now k).1 =
      fetchCandlesNorm k * 60 := by
    intro k
    unfold fetchCandlesWindow
    ring
  refine ⟨rfl, fun hm => ?_, fun hm => ?_, ?_⟩
  · rw [hgen m]
    unfold fetchCandlesNorm
    rw [if_pos hm]
  · rw [hgen m]
    unfold fetchCandlesNorm
    rw [if_neg (by omega)]
  · rw [hgen (effectiveMinutes minStr)]
    have h1 := effectiveMinutes_pos minStr
    unfold fetchCandlesNorm
    rw [if_neg (by omega)]

/-- Witness for C8: at `now = 1000` an invalid window of `-5` minutes yields
the default 3600-second window ending at 1000. -/
theorem fetchCandles_window_spec_witness :
    (fetchCandlesWindow 1000 (-5)).2 = 1000 ∧
    (fetchCandlesWindow 1000 (-5)).2 - (fetchCandlesWindow 1000 (-5)).1 = 60 * 60 := by
  have h := fetchCandles_window_spec 1000 (-5) ""
  exact ⟨h.1, h.2.1 (by norm_num)⟩

/-! ### C10: quote decode tolerance -/

/-- Whether a JSON value can be decoded into a `float64` field without a
type mismatch (a number overwrites, `null` is a no-op). -/
def isNumOrNull : Json → Bool
  | Json.num _ => true
  | Json.null => true
  | _ => false

/-- Whether an object key is one of the five tagged `quoteResp` fields. -/
def isQuoteKey (k : String) : Bool :=
  k = "c" || k = "h" || k = "l" || k = "o" || k = "pc"

lemma decodeF64_ok (v : Json) (cur : Int) (hv : isNumOrNull v = true) :
    ∃ x, decodeF64 v cur = Except.ok x := by
  cases v with
  | num n => exact ⟨n, rfl⟩
  | null => exact ⟨cur, rfl⟩
  | bool b => simp [isNumOrNull] at hv
  | str s => simp [isNumOrNull] at hv
  | arr xs => simp [isNumOrNull] at hv
  | obj fs => simp [isNumOrNull] at hv

lemma setQuoteField_ok (q0 : QuoteResp) (k : String) (v : Json)
    (hv : isQuoteKey k = true → isNumOrNull v = true) :
    ∃ q1, setQuoteField q0 k v = Except.ok q1 := by
  unfold setQuoteField
  split
  case isTrue hk =>
    obtain ⟨x, hx⟩ := decodeF64_ok v q0.Current (hv (by simp [isQuoteKey, hk]))
    exact ⟨_, by rw [hx]; rfl⟩
  case isFalse hk =>
    split
    case isTrue hk2 =>
      obtain ⟨x, hx⟩ := decodeF64_ok v q0.High (hv (by simp [isQuoteKey, hk2]))
      exact ⟨_, by rw [hx]; rfl⟩
    case isFalse hk2 =>
      split
      case isTrue hk3 =>
        obtain ⟨x, hx⟩ := decodeF64_ok v q0.Low (hv (by simp [isQuoteKey, hk3]))
        exact ⟨_, by rw [hx]; rfl⟩
      case isFalse hk3 =>
        split
        case isTrue hk4 =>
          obtain ⟨x, hx⟩ := decodeF64_ok v q0.Open (hv (by simp [isQuoteKey, hk4]))
          exact ⟨_, by rw [hx]; rfl⟩
        case isFalse hk4 =>
          split
          case isTrue hk5 =>
            obtain ⟨x, hx⟩ := decodeF64_ok v q0.PrevClose (hv (by simp [isQuoteKey, hk5]))
            exact ⟨_, by rw [hx]; rfl⟩
          case isFalse hk5 => exact ⟨q0, rfl⟩

lemma foldQuoteFields_ok :
    ∀ (fields : List (String × Json)) (q0 : QuoteResp),
      (∀ kv ∈ fields, isQuoteKey kv.1 = true → isNumOrNull kv.2 = true) →
      ∃ q, fields.foldlM (fun q kv => setQuoteField q kv.1 kv.2) q0 = Except.ok q
  | [], q0, _ => ⟨q0, rfl⟩
  | kv :: rest, q0, h => by
    obtain ⟨q1, hq1⟩ := setQuoteField_ok q0 kv.1 kv.2 (h kv (List.mem_cons_self kv rest))
    obtain ⟨q, hq⟩ := foldQuoteFields_ok rest q1
      (fun kv' hm => h kv' (List.mem_cons_of_mem kv hm))
    refine ⟨q, ?_⟩
    rw [List.foldlM_cons, hq1]
    exact hq

/-- Counterexample to C10 as stated: a 2xx response whose body is the
syntactically valid JSON object `{"c": "oops"}` does not decode — a
type-mismatched field is a decode error even though the JSON is well-formed,
so "a decode error occurs only for malformed JSON" fails. -/
theorem quote_valid_json_can_fail_decode :
    fetchQuote none 200 (some (Json.obj [("c", Json.str "oops")])) =
      Except.error "json: cannot unmarshal value into Go struct field of type float64" :=
  rfl

/-- C10 amended: a 2xx response whose body is a JSON object in which every
occurrence of the tagged keys `c`, `h`, `l`, `o`, `pc` carries a number (or
`null`) decodes successfully even when some or all of those keys are absent;
in particular the empty object `{}` yields the zero quote, whose price is 0.
Decode errors remain for malformed JSON and additionally for well-formed
JSON of the wrong shape (non-object top level or a mistyped field). -/
theorem quote_decode_tolerates_missing_fields (status : Nat)
    (fields : List (String × Json)) (h2 : 200 ≤ status) (h3 : status < 300)
    (hf : ∀ kv ∈ fields, isQuoteKey kv.1 = true → isNumOrNull kv.2 = true) :
    (∃ q, fetchQuote none status (some (Json.obj fields)) = Except.ok q) ∧
    fetchQuote none status (some (Json.obj [])) = Except.ok QuoteResp.zero ∧
    (fetchQuote none status (some (Json.obj []))).map QuoteResp.Current =
      Except.ok 0 := by
  have hst : ¬(status < 200 ∨ 300 ≤ status) := by omega
  have hshape : ∀ j : Json, fetchQuote none status (some j) = decodeQuoteResp j := by
    intro j
    unfold fetchQuote
    rw [if_neg hst]
  obtain ⟨q, hq⟩ := foldQuoteFields_ok fields QuoteResp.zero hf
  refine ⟨⟨q, ?_⟩, ?_, ?_⟩
  · rw [hshape (Json.obj fields)]
    exact hq
  · rw [hshape (Json.obj [])]
    rfl
  · rw [hshape (Json.obj [])]
    rfl

/-- Witness for the amended C10: the empty-object body `{}` on a 200 response
decodes to the all-zero quote. -/
theorem quote_decode_tolerates_missing_fields_witness :
    (∃ q, fetchQuote none 200 (some (Json.obj [])) = Except.ok q) ∧
    fetchQuote none 200 (some (Json.obj [])) = Except.ok QuoteResp.zero :=
  ⟨(quote_decode_tolerates_missing_fields 200 [] (by norm_num) (by norm_num)
      (fun kv hm => absurd hm (List.not_mem_nil kv))).1,
   (quote_decode_tolerates_missing_fields 200 [] (by norm_num) (by norm_num)
      (fun kv hm => absurd hm (List.not_mem_nil kv))).2.1⟩

/-! ### Streaming-session counting helpers -/

def WsEvent.isLogError : WsEvent → Bool
  | WsEvent.logError => true
  | _ => false

/-- Number of write attempts in a trace. -/
def countSend (tr : List WsEvent) : Nat := tr.countP WsEvent.isSend

/-- Number of ticker firings processed in a trace. -/
def countWait (tr : List WsEvent) : Nat := tr.countP WsEvent.isWaitTick

/-- Number of `conn.Close()` calls in a trace. -/
def countClose (tr : List WsEvent) : Nat := tr.countP WsEvent.isCloseConn

/-- Number of `ticker.Stop()` calls in a trace. -/
def countStop (tr : List WsEvent) : Nat := tr.countP WsEvent.isStopTicker

/-- Number of error log lines in a trace. -/
def countLog (tr : List WsEvent) : Nat := tr.countP WsEvent.isLogError

lemma countSend_take_le (l : List WsEvent) (n : Nat) :
    countSend (l.take n) ≤ countSend l :=
  (List.take_sublist n l).countP_le WsEvent.isSend

lemma countClose_sqEvents (sym : String) (o : SQOutcome) :
    countClose (sqEvents sym o) = 0 := by
  cases o <;>
    simp [sqEvents, countClose, List.countP_cons, WsEvent.isCloseConn]

lemma countStop_sqEvents (sym : String) (o : SQOutcome) :
    countStop (sqEvents sym o) = 0 := by
  cases o <;>
    simp [sqEvents, countStop, List.countP_cons, WsEvent.isStopTicker]

lemma countLog_sqEvents (sym : String) (o : SQOutcome) :
    countLog (sqEvents sym o) = 0 := by
  cases o <;>
    simp [sqEvents, countLog, List.countP_cons, WsEvent.isLogError]

/-- In any prefix of the ticker loop's trace, write attempts never outnumber
the ticker firings already processed. -/
lemma wsLoop_take_sends_le_waits (sym : String) :
    ∀ (rest : List SQOutcome) (n : Nat),
      countSend ((wsLoop sym rest).take n) ≤ countWait ((wsLoop sym rest).take n)
  | [], n => by simp [wsLoop, countSend, countWait]
  | SQOutcome.fetchFail :: rest, n => by
    have hfull : countSend (wsLoop sym (SQOutcome.fetchFail :: rest)) = 0 := by
      simp [wsLoop, sqEvents, sqOk, wsTeardown, countSend, List.countP_cons,
            WsEvent.isSend]
    have h1 := countSend_take_le (wsLoop sym (SQOutcome.fetchFail :: rest)) n
    omega
  | SQOutcome.sendFail p t :: rest, n => by
    cases n with
    | zero => simp [countSend, countWait]
    | succ m =>
      have hred : wsLoop sym (SQOutcome.sendFail p t :: rest) =
          WsEvent.waitTick :: ([WsEvent.fetchOk,
            WsEvent.send (payloadJson sym p t) false] ++ wsTeardown) := rfl
      rw [hred, List.take_succ_cons]
      have h1 := countSend_take_le ([WsEvent.fetchOk,
        WsEvent.send (payloadJson sym p t) false] ++ wsTeardown) m
      have hfull : countSend ([WsEvent.fetchOk,
          WsEvent.send (payloadJson sym p t) false] ++ wsTeardown) = 1 := by
        simp [wsTeardown, countSend, List.countP_cons, WsEvent.isSend]
      simp [countSend, countWait, List.countP_cons, WsEvent.isSend,
            WsEvent.isWaitTick] at *
      have ha : List.countP WsEvent.isSend wsTeardown = 0 := rfl
      have hb : List.countP WsEvent.isWaitTick wsTeardown = 0 := rfl
      omega
  | SQOutcome.ok p t :: rest, n => by
    have hred : wsLoop sym (SQOutcome.ok p t :: rest) =
        WsEvent.waitTick :: WsEvent.fetchOk ::
          WsEvent.send (payloadJson sym p t) true :: wsLoop sym rest := rfl
    match n with
    | 0 => simp [countSend, countWait]
    | 1 =>
      rw [hred]
      simp [countSend, countWait, List.countP_cons, WsEvent.isSend,
            WsEvent.isWaitTick]
    | 2 =>
      rw [hred]
      simp [countSend, countWait, List.countP_cons, WsEvent.isSend,
            WsEvent.isWaitTick]
    | (m + 3) =>
      rw [hred, List.take_succ_cons, List.take_succ_cons, List.take_succ_cons]
      have ih := wsLoop_take_sends_le_waits sym rest m
      simp [countSend, countWait, List.countP_cons, WsEvent.isSend,
            WsEvent.isWaitTick] at *
      omega

lemma countSend_takeWhile_wsLoop (sym : String) (rest : List SQOutcome) :
    countSend ((wsLoop sym rest).takeWhile (fun e => !e.isWaitTick)) = 0 := by
  cases rest <;> rfl

/-- Counterexample to C1's arming order as stated: in a session whose first
fetch-and-send succeeds, the trace begins with the ticker being armed (index
0) and the first write attempt only comes later (index 2) — `time.NewTicker`
runs at main.go line 181, before the first `sendQuote()` at line 199, so the
first fetch-and-send does not happen before the periodic timer is armed. -/
theorem ws_ticker_armed_before_first_send :
    (handleWS "X" true (SQOutcome.ok 5 9) []).findIdx? WsEvent.isArmTicker = some 0 ∧
    (handleWS "X" true (SQOutcome.ok 5 9) []).findIdx? WsEvent.isSend = some 2 :=
  ⟨rfl, rfl⟩

/-- C1 amended: a session whose first synchronous fetch-and-send succeeds
performs exactly one write attempt before the first ticker firing is
processed, and in every prefix of the session trace the number of write
attempts exceeds the number of processed ticker firings by at most one — so
every message after the first is sent only from a timer firing.  (The ticker
is armed before the first send, as the trace head shows, not after it.) -/
theorem ws_one_send_before_first_tick (query : String) (first : SQOutcome)
    (rest : List SQOutcome) (hfirst : sqOk first = true) :
    (handleWS query true first rest).head? = some WsEvent.armTicker ∧
    countSend ((handleWS query true first rest).takeWhile
      (fun e => !e.isWaitTick)) = 1 ∧
    ∀ n, countSend ((handleWS query true first rest).take n) ≤
      1 + countWait ((handleWS query true first rest).take n) := by
  cases first with
  | fetchFail => simp [sqOk] at hfirst
  | sendFail p t => simp [sqOk] at hfirst
  | ok p t =>
    have hred : handleWS query true (SQOutcome.ok p t) rest =
        WsEvent.armTicker :: WsEvent.fetchOk ::
          WsEvent.send (payloadJson (wsSymbol query) p t) true ::
          wsLoop (wsSymbol query) rest := rfl
    refine ⟨by rw [hred]; rfl, ?_, ?_⟩
    · rw [hred]
      show countSend (WsEvent.armTicker :: WsEvent.fetchOk ::
          WsEvent.send (payloadJson (wsSymbol query) p t) true ::
          (wsLoop (wsSymbol query) rest).takeWhile (fun e => !e.isWaitTick)) = 1
      have h1 : countSend (WsEvent.armTicker :: WsEvent.fetchOk ::
          WsEvent.send (payloadJson (wsSymbol query) p t) true ::
          (wsLoop (wsSymbol query) rest).takeWhile (fun e => !e.isWaitTick)) =
          countSend ((wsLoop (wsSymbol query) rest).takeWhile
            (fun e => !e.isWaitTick)) + 1 := by
        simp [countSend, List.countP_cons, WsEvent.isSend]
      have h0 := countSend_takeWhile_wsLoop (wsSymbol query) rest
      omega
    · intro n
      match n with
      | 0 => simp [countSend, countWait]
      | 1 =>
        rw [hred]
        simp [countSend, countWait, List.countP_cons, WsEvent.isSend,
              WsEvent.isWaitTick]
      | 2 =>
        rw [hred]
        simp [countSend, countWait, List.countP_cons, WsEvent.isSend,
              WsEvent.isWaitTick]
      | (m + 3) =>
        rw [hred, List.take_succ_cons, List.take_succ_cons, List.take_succ_cons]
        have ih := wsLoop_take_sends_le_waits (wsSymbol query) rest m
        simp [countSend, countWait, List.countP_cons, WsEvent.isSend,
              WsEvent.isWaitTick] at *
        omega

/-- Witness for the amended C1: the concrete one-tick session run. -/
theorem ws_one_send_before_first_tick_witness :
    countSend ((handleWS "" true (SQOutcome.ok 1 2)
      [SQOutcome.ok 3 4]).takeWhile (fun e => !e.isWaitTick)) = 1 :=
  (ws_one_send_before_first_tick "" (SQOutcome.ok 1 2) [SQOutcome.ok 3 4] rfl).2.1

lemma countClose_append (A B : List WsEvent) :
    countClose (A ++ B) = countClose A + countClose B := by
  simp [countClose]

lemma countStop_append (A B : List WsEvent) :
    countStop (A ++ B) = countStop A + countStop B := by
  simp [countStop]

lemma countLog_append (A B : List WsEvent) :
    countLog (A ++ B) = countLog A + countLog B := by
  simp [countLog]

lemma countClose_wait_sq (sym : String) (o : SQOutcome) :
    countClose (WsEvent.waitTick :: sqEvents sym o) = 0 := by
  cases o <;> rfl

lemma countStop_wait_sq (sym : String) (o : SQOutcome) :
    countStop (WsEvent.waitTick :: sqEvents sym o) = 0 := by
  cases o <;> rfl

lemma countLog_wait_sq (sym : String) (o : SQOutcome) :
    countLog (WsEvent.waitTick :: sqEvents sym o) = 0 := by
  cases o <;> rfl

lemma wsLoop_fail_teardown (sym : String) :
    ∀ (rest : List SQOutcome), rest.any (fun o => !sqOk o) = true →
      ∃ pre, wsLoop sym rest = pre ++ wsTeardown ∧
        countClose pre = 0 ∧ countStop pre = 0 ∧ countLog pre = 0
  | [], h => by simp at h
  | o :: rest, h => by
    cases ho : sqOk o with
    | false =>
      refine ⟨WsEvent.waitTick :: sqEvents sym o, ?_, countClose_wait_sq sym o,
        countStop_wait_sq sym o, countLog_wait_sq sym o⟩
      show WsEvent.waitTick :: sqEvents sym o ++
        (if sqOk o then wsLoop sym rest else wsTeardown) = _
      rw [ho]
      simp
    | true =>
      have hrest : rest.any (fun o => !sqOk o) = true := by
        simp [List.any_cons, ho] at h
        simpa using h
      obtain ⟨pre, hpre, h1, h2, h3⟩ := wsLoop_fail_teardown sym rest hrest
      refine ⟨(WsEvent.waitTick :: sqEvents sym o) ++ pre, ?_, ?_, ?_, ?_⟩
      · show WsEvent.waitTick :: sqEvents sym o ++
          (if sqOk o then wsLoop sym rest else wsTeardown) = _
        rw [ho, if_pos rfl, hpre]
        simp
      · rw [countClose_append, countClose_wait_sq, h1]
      · rw [countStop_append, countStop_wait_sq, h2]
      · rw [countLog_append, countLog_wait_sq, h3]

/-- C2: in a session whose first send fails, or in which some later
fetch-and-send attempt fails, the connection is closed exactly once, the
ticker is stopped exactly once, exactly one error is logged (no retry), and
`conn.Close()` is the final event of the session — nothing further is sent
over the connection afterward. -/
theorem ws_failure_closes_once (query : String) (first : SQOutcome)
    (rest : List SQOutcome)
    (hfail : sqOk first = false ∨ rest.any (fun o => !sqOk o) = true) :
    countClose (handleWS query true first rest) = 1 ∧
    countStop (handleWS query true first rest) = 1 ∧
    countLog (handleWS query true first rest) = 1 ∧
    (handleWS query true first rest).getLast? = some WsEvent.closeConn := by
  have hdecomp : ∃ pre, handleWS query true first rest = pre ++ wsTeardown ∧
      countClose pre = 0 ∧ countStop pre = 0 ∧ countLog pre = 0 := by
    cases hf : sqOk first with
    | false =>
      refine ⟨WsEvent.armTicker :: sqEvents (wsSymbol query) first, ?_, ?_, ?_, ?_⟩
      · show WsEvent.armTicker :: sqEvents (wsSymbol query) first ++
            (if sqOk first then wsLoop (wsSymbol query) rest else wsTeardown) = _
        rw [hf]
        simp
      · cases first <;> rfl
      · cases first <;> rfl
      · cases first <;> rfl
    | true =>
      have hany : rest.any (fun o => !sqOk o) = true := by
        rcases hfail with h | h
        · rw [hf] at h
          exact absurd h (by simp)
        · exact h
      obtain ⟨pre, hpre, h1, h2, h3⟩ :=
        wsLoop_fail_teardown (wsSymbol query) rest hany
      refine ⟨(WsEvent.armTicker :: sqEvents (wsSymbol query) first) ++ pre,
        ?_, ?_, ?_, ?_⟩
      · show WsEvent.armTicker :: sqEvents (wsSymbol query) first ++
            (if sqOk first then wsLoop (wsSymbol query) rest else wsTeardown) = _
        rw [hf, if_pos rfl, hpre]
        simp
      · rw [countClose_append]
        have h0 : countClose (WsEvent.armTicker :: sqEvents (wsSymbol query) first) = 0 := by
          cases first <;> rfl
        omega
      · rw [countStop_append]
        have h0 : countStop (WsEvent.armTicker :: sqEvents (wsSymbol query) first) = 0 := by
          cases first <;> rfl
        omega
      · rw [countLog_append]
        have h0 : countLog (WsEvent.armTicker :: sqEvents (wsSymbol query) first) = 0 := by
          cases first <;> rfl
        omega
  obtain ⟨pre, hpre, h1, h2, h3⟩ := hdecomp
  rw [hpre]
  refine ⟨?_, ?_, ?_, ?_⟩
  · rw [countClose_append, h1]
    rfl
  · rw [countStop_append, h2]
    rfl
  · rw [countLog_append, h3]
    rfl
  · simp [List.getLast?_append, wsTeardown]

/-- Witness for C2: a session whose very first fetch fails tears down once. -/
theorem ws_failure_closes_once_witness :
    countClose (handleWS "" true SQOutcome.fetchFail []) = 1 :=
  (ws_failure_closes_once "" SQOutcome.fetchFail [] (Or.inl rfl)).1

lemma sentMsgs_append (A B : List WsEvent) :
    sentMsgs (A ++ B) = sentMsgs A ++ sentMsgs B := by
  simp [sentMsgs]

lemma sentMsgs_sqEvents (sym : String) (o : SQOutcome) (m : Json)
    (hm : m ∈ sentMsgs (sqEvents sym o)) : ∃ p t, m = payloadJson sym p t := by
  cases o with
  | fetchFail => simp [sentMsgs, sqEvents] at hm
  | sendFail p t => simp [sentMsgs, sqEvents] at hm
  | ok p t =>
    simp [sentMsgs, sqEvents] at hm
    exact ⟨p, t, hm⟩

lemma sentMsgs_wsLoop (sym : String) :
    ∀ (rest : List SQOutcome) (m : Json), m ∈ sentMsgs (wsLoop sym rest) →
      ∃ p t, m = payloadJson sym p t
  | [], m, hm => by simp [wsLoop, sentMsgs] at hm
  | o :: rest, m, hm => by
    rw [show wsLoop sym (o :: rest) = (WsEvent.waitTick :: sqEvents sym o) ++
      (if sqOk o then wsLoop sym rest else wsTeardown) from by simp [wsLoop],
      sentMsgs_append] at hm
    rcases List.mem_append.mp hm with hl | hr
    · have : sentMsgs (WsEvent.waitTick :: sqEvents sym o) = sentMsgs (sqEvents sym o) := by
        simp [sentMsgs]
      rw [this] at hl
      exact sentMsgs_sqEvents sym o m hl
    · cases ho : sqOk o with
      | true =>
        rw [ho, if_pos rfl] at hr
        exact sentMsgs_wsLoop sym rest m hr
      | false =>
        rw [ho] at hr
        simp [sentMsgs, wsTeardown] at hr

/-- C9: every message a session actually pushes is a JSON object with
exactly the keys `price`, `symbol` and `time` (in Go's marshalled key
order), the symbol being the session's symbol — which is the fixed fallback
"AAPL" whenever the `symbol` query parameter is absent or empty — the price
being the fetched quote's current price, and the time being the wall-clock
capture time in epoch milliseconds carried by the fetch outcome. -/
theorem ws_session_messages (query : String) (first : SQOutcome)
    (rest : List SQOutcome) (m : Json)
    (hm : m ∈ sentMsgs (handleWS query true first rest)) :
    wsSymbol "" = "AAPL" ∧
    ∃ p t, m = Json.obj [("price", Json.num p),
                         ("symbol", Json.str (wsSymbol query)),
                         ("time", Json.num t)] := by
  refine ⟨rfl, ?_⟩
  rw [show handleWS query true first rest =
      (WsEvent.armTicker :: sqEvents (wsSymbol query) first) ++
        (if sqOk first then wsLoop (wsSymbol query) rest else wsTeardown) from by
        simp [handleWS], sentMsgs_append] at hm
  rcases List.mem_append.mp hm with hl | hr
  · have : sentMsgs (WsEvent.armTicker :: sqEvents (wsSymbol query) first) =
        sentMsgs (sqEvents (wsSymbol query) first) := by
      simp [sentMsgs]
    rw [this] at hl
    exact sentMsgs_sqEvents (wsSymbol query) first m hl
  · cases hf : sqOk first with
    | true =>
      rw [hf, if_pos rfl] at hr
      exact sentMsgs_wsLoop (wsSymbol query) rest m hr
    | false =>
      rw [hf] at hr
      simp [sentMsgs, wsTeardown] at hr

/-- Witness for C9: the one message of a one-send session on an absent
symbol is the AAPL payload. -/
theorem ws_session_messages_witness :
    wsSymbol "" = "AAPL" ∧
    ∃ p t, payloadJson "AAPL" 1 2 =
      Json.obj [("price", Json.num p), ("symbol", Json.str (wsSymbol "")),
                ("time", Json.num t)] :=
  ws_session_messages "" (SQOutcome.ok 1 2) [] (payloadJson "AAPL" 1 2)
    (List.Mem.head _)
